import Mathlib

/-!
Verification of the essv26_emotionalportrayal repository.

The repository consists of two batch scripts:
  * `src/data/process_database.py` — scans a directory of audio files,
    parses a filename grammar (`G_(\d{4})_([MF])_(\d+)_st\.(WAV|wav)`,
    matched with `re.match`, i.e. anchored at the start only), reads
    sibling `.txt` transcripts, and assembles a pandas DataFrame.
  * `src/tag_data/merge_predictions.py` — inner-joins two CSV tables on a
    fixed list of 10 key columns.

This file gives a shallow embedding of both scripts and proves the frozen
claims about them.  Filesystem state (the directory listing and the state
of each sibling transcript file) is passed explicitly; pandas DataFrames
are embedded as a list of column names plus a list of rows of cell values.
-/

/-- A cell value of a table: the scripts only ever place strings and
integers in cells (the merger compares cells for equality, which we embed
as decidable equality on this type). -/
inductive Value where
  | str : String → Value
  | int : Int → Value
deriving DecidableEq, Repr

/-- A pandas DataFrame without an index: column names plus rows of cells. -/
structure Frame where
  columns : List String
  rows : List (List Value)
deriving DecidableEq, Repr

/-- A DataFrame after `set_index`: the index column is pulled out as `keys`. -/
structure IndexedFrame where
  indexName : String
  keys : List Value
  columns : List String
  rows : List (List Value)
deriving DecidableEq, Repr

/-- Cell lookup by column name: walk the column list and the row in
parallel and return the cell under the first matching name (pandas
positional column access; a missing name yields a default, which the
embedding only ever reaches on names guarded to be present). -/
def lookup : List String → List Value → String → Value
  | [], _, _ => .str ""
  | _, [], _ => .str ""
  | n :: ns, v :: vs, c => if n = c then v else lookup ns vs c

/-- Embedding of `df[cols]` (column selection/reordering): succeeds iff
every requested column is present, otherwise a pandas `KeyError`. -/
def selectCols (cols : List String) (f : Frame) : Except String Frame :=
  if cols.all (fun c => f.columns.contains c) then
    .ok { columns := cols, rows := f.rows.map (fun r => cols.map (lookup f.columns r)) }
  else
    .error "KeyError: columns not in index"

/-- Remove the cell paired with the first occurrence of column `c`. -/
def removeCell : List String → List Value → String → List Value
  | [], r, _ => r
  | _, [], _ => []
  | n :: ns, v :: vs, c => if n = c then vs else v :: removeCell ns vs c

/-- Embedding of `df.set_index(c)`: pull column `c` out as the row key.
(pandas raises on a missing column; the script applies this only right
after a successful selection of `column_order`, which contains `file`, so
the column is always present on the reachable path and the embedding is
total.) -/
def set_index (c : String) (f : Frame) : IndexedFrame :=
  { indexName := c
    keys := f.rows.map (fun r => lookup f.columns r c)
    columns := f.columns.erase c
    rows := f.rows.map (fun r => removeCell f.columns r c) }

/-! ## The filename grammar

`parse_filename` matches `r"G_(\d{4})_([MF])_(\d+)_st\.(WAV|wav)"` with
`re.match`, which anchors at the start of the string only.  Every
quantifier in the pattern is either fixed-width or a greedy `\d+` whose
follower `_` is not a digit, so maximal munch coincides with the regex
engine's backtracking semantics and the grammar is embedded as a
deterministic prefix parser over the character list. -/

/-- `\d` (the scripts only ever feed ASCII filenames). -/
def digit (c : Char) : Bool := c.isDigit

/-- Longest prefix of digits, with the rest of the input. -/
def takeDigits : List Char → List Char × List Char
  | [] => ([], [])
  | c :: cs =>
    if digit c then
      let (ds, r) := takeDigits cs
      (c :: ds, r)
    else
      ([], c :: cs)

/-- `(\d{4})`: exactly four digits. -/
def matchYear : List Char → Option (List Char × List Char)
  | d1 :: d2 :: d3 :: d4 :: rest =>
    if digit d1 && digit d2 && digit d3 && digit d4 then
      some ([d1, d2, d3, d4], rest)
    else
      none
  | _ => none

/-- `(WAV|wav)`: the two alternatives tried left to right. -/
def matchWavExt : List Char → Option (List Char × List Char)
  | 'W' :: 'A' :: 'V' :: r => some (['W', 'A', 'V'], r)
  | 'w' :: 'a' :: 'v' :: r => some (['w', 'a', 'v'], r)
  | _ => none

/-- Prefix match of `G_(\d{4})_([MF])_(\d+)_st\.(WAV|wav)` (the semantics
of `re.match`): returns the year digits, the gender code, the id digits,
the matched extension and the unconsumed rest of the input. -/
def matchGrammar (cs : List Char) : Option (List Char × Char × List Char × List Char × List Char) :=
  match cs with
  | 'G' :: '_' :: rest =>
    match matchYear rest with
    | none => none
    | some (y, rest1) =>
      match rest1 with
      | '_' :: g :: '_' :: rest2 =>
        if g = 'M' || g = 'F' then
          let (ds, rest3) := takeDigits rest2
          if ds.isEmpty then none
          else
            match rest3 with
            | '_' :: 's' :: 't' :: '.' :: rest4 =>
              match matchWavExt rest4 with
              | some (e, rest5) => some (y, g, ds, e, rest5)
              | none => none
            | _ => none
        else none
      | _ => none
  | _ => none

/-- Decimal value of a digit string (`int(match.group(1))`). -/
def digitsToNat (ds : List Char) : Nat :=
  ds.foldl (fun a c => 10 * a + (c.toNat - '0'.toNat)) 0

/-- Embedding of `parse_filename`: returns the 4-tuple
`(speaker, gender, age, birth_year)`, all `none` when the grammar does not
match (the Python `None, None, None, None`). -/
def parse_filename (filename : String) :
    Option String × Option String × Option Int × Option Int :=
  match matchGrammar filename.data with
  | none => (none, none, none, none)
  | some (y, g, ds, _e, _rest) =>
    let birth_year : Int := (digitsToNat y : Int)
    let speaker : String := String.mk (g :: '_' :: ds)
    let gender : String := if g = 'M' then "male" else "female"
    let current_year : Int := 2025
    let age : Int := current_year - birth_year
    (some speaker, some gender, some age, some birth_year)

example : parse_filename "G_1991_M_26_st.WAV" =
    (some "M_26", some "male", some 34, some 1991) := by decide

example : parse_filename "random_file.WAV" = (none, none, none, none) := by decide

example : (parse_filename "G_1991_M_26_st.WAVxyz").1 = some "M_26" := by decide

/-! ## The extractor pipeline (`process_database`)

The filesystem is passed explicitly: a directory listing entry carries the
file name and the state of the sibling `.txt` transcript —
`none` when no transcript file exists, `some (.error ())` when it exists
but reading raises, `some (.ok content)` when reading succeeds.
Diagnostics (the script's `print` warnings) are collected in a list. -/

structure AudioEntry where
  name : String
  txt : Option (Except Unit String)

/-- Python's `str.strip()`: drop leading and trailing whitespace. -/
def strip (s : String) : String :=
  String.mk (((s.data.dropWhile Char.isWhitespace).reverse.dropWhile Char.isWhitespace).reverse)

/-- Embedding of `read_transcription`: a successful read strips the
content, a raised exception is caught, a warning printed and `""`
returned. -/
def read_transcription (name : String) (txt : Except Unit String) : String × List String :=
  match txt with
  | .ok content => (strip content, [])
  | .error _ => ("", ["Warning: Could not read " ++ name])

/-- One row of the assembled record list (the dict built per audio file). -/
structure Rec where
  file : String
  speaker : String
  gender : String
  age : Int
  birth_year : Int
  transcription : String
deriving DecidableEq, Repr

/-- The loop body of `process_database` for one audio file: parse the
filename, skip with a warning when the parse fails (the `speaker is None`
check), otherwise look up the transcript and build the record.  The
`file` field is the path relative to the parent of the scanned folder. -/
def processEntry (folder : String) (e : AudioEntry) : Option Rec × List String :=
  match parse_filename e.name with
  | (none, _, _, _) => (none, ["Warning: Could not parse filename: " ++ e.name])
  | (some speaker, gender, age, birth_year) =>
    let (transcription, ds) :=
      match e.txt with
      | none => ("", ["Warning: No transcription file found for " ++ e.name])
      | some t => read_transcription e.name t
    (some { file := folder ++ "/" ++ e.name
            speaker := speaker
            gender := gender.getD ""
            age := age.getD 0
            birth_year := birth_year.getD 0
            transcription := transcription }, ds)

/-- The whole loop: records of the successfully parsed files in input
order, plus all diagnostics in emission order. -/
def processAll (folder : String) : List AudioEntry → List Rec × List String
  | [] => ([], [])
  | e :: es =>
    let (r, d) := processEntry folder e
    let (rs, ds) := processAll folder es
    (match r with | some rec => rec :: rs | none => rs, d ++ ds)

/-- `*.WAV` / `*.wav` glob filter on a directory entry name (a name is
matched by the glob iff it ends with the extension). -/
def isAudioName (s : String) : Bool :=
  List.isSuffixOf ".WAV".data s.data || List.isSuffixOf ".wav".data s.data

/-- Cells of a record, in the dict's key order
`file, speaker, gender, age, birth_year, transcription`. -/
def recToRow (r : Rec) : List Value :=
  [.str r.file, .str r.speaker, .str r.gender, .int r.age, .int r.birth_year,
   .str r.transcription]

/-- The fixed output column order requested by `df[column_order]`. -/
def column_order : List String :=
  ["file", "speaker", "gender", "age", "birth_year", "emotion", "transcription"]

/-- Lexicographic comparison of strings by code point (the order Python
uses for `sorted` on the path strings). -/
def charListLe : List Char → List Char → Bool
  | [], _ => true
  | _ :: _, [] => false
  | a :: as, b :: bs =>
    if a.toNat < b.toNat then true
    else if b.toNat < a.toNat then false
    else charListLe as bs

def nameLe (a b : String) : Bool := charListLe a.data b.data

def audioList (entries : List AudioEntry) : List AudioEntry :=
  List.insertionSort (fun a b : AudioEntry => nameLe a.name b.name)
    (entries.filter (fun e => isAudioName e.name))

/-- `pd.DataFrame(records)`: an empty record list yields a frame with no
columns at all, a non-empty one the dict keys as columns. -/
def buildFrame (records : List Rec) : Frame :=
  { columns :=
      if records.isEmpty then []
      else ["file", "speaker", "gender", "age", "birth_year", "transcription"]
    rows := records.map recToRow }

/-- `df["emotion"] = "unknown"`: append the constant column. -/
def addEmotion (f : Frame) : Frame :=
  { columns := f.columns ++ ["emotion"]
    rows := f.rows.map (fun r => r ++ [.str "unknown"]) }

/-- `df[column_order]` followed by `df.set_index("file", inplace=True)`. -/
def finalizeFrame (f : Frame) : Except String IndexedFrame :=
  match selectCols column_order f with
  | .error err => .error err
  | .ok df2 => .ok (set_index "file" df2)

/-- Embedding of `process_database`: glob the audio files, sort them
(`sorted(audio_files)`), run the loop, build the DataFrame from the
records (an empty record list yields a frame with no columns, as
`pd.DataFrame([])` does), add the constant `emotion` column, select
`column_order` (a pandas `KeyError` when a requested column is absent)
and set `file` as the index.  Returns the printed warnings alongside the
result. -/
def process_database (folder : String) (entries : List AudioEntry) :
    List String × Except String IndexedFrame :=
  ((processAll folder (audioList entries)).2,
   finalizeFrame (addEmotion (buildFrame (processAll folder (audioList entries)).1)))

/-! ## The merger (`merge_predictions`) -/

/-- The hand-maintained list of 10 shared key columns. -/
def common_cols : List String :=
  ["file", "start", "end", "speaker", "gender", "age", "birth_year",
   "duration", "emotion", "text"]

/-- Columns of a table that are not join keys (`*_unique` in the script). -/
def uniqueCols (f : Frame) : List String :=
  f.columns.filter (fun c => !(common_cols.contains c))

/-- Key tuple of a row: the cells under the 10 key columns. -/
def keyTuple (cols : List String) (r : List Value) : List Value :=
  common_cols.map (lookup cols r)

/-- Embedding of `pd.merge(A, B, on=common_cols, how="inner")`: a pandas
`KeyError` when a key column is absent from either table; otherwise every
pair of rows with equal key tuples yields an output row consisting of the
left row followed by the right row's non-key cells, and the output
columns are the left columns followed by the right table's non-key
columns.  (Suffixing of overlapping non-key column names is outside the
modelled behaviour; the claims only concern disjoint non-key columns.) -/
def merge_inner (A B : Frame) : Except String Frame :=
  if common_cols.all (fun c => A.columns.contains c) &&
     common_cols.all (fun c => B.columns.contains c) then
    .ok { columns := A.columns ++ uniqueCols B
          rows := A.rows.flatMap (fun ra =>
            (B.rows.filter (fun rb => keyTuple B.columns rb = keyTuple A.columns ra)).map
              (fun rb => ra ++ (uniqueCols B).map (lookup B.columns rb))) }
  else
    .error "KeyError: merge key not in frame"

/-- The whole merger script: select `common_cols + segmented_unique` from
the right table, then inner-join on the key columns. -/
def merge_script (all_predicted segmented : Frame) : Except String Frame :=
  match selectCols (common_cols ++ uniqueCols segmented) segmented with
  | .error err => .error err
  | .ok sel => merge_inner all_predicted sel

/-! ## Helper lemmas -/

/-- The columns of the final indexed frame (after `file` moves to the index). -/
def finalColumns : List String :=
  ["speaker", "gender", "age", "birth_year", "emotion", "transcription"]

/-- The cells of a record in the final indexed frame. -/
def finalRow (r : Rec) : List Value :=
  [.str r.speaker, .str r.gender, .int r.age, .int r.birth_year,
   .str "unknown", .str r.transcription]

theorem parse_shape (s : String) :
    parse_filename s = (none, none, none, none) ∨
      ∃ sp g a b, parse_filename s = (some sp, some g, some a, some b) := by
  unfold parse_filename
  cases matchGrammar s.data with
  | none => exact Or.inl rfl
  | some t =>
    obtain ⟨y, g, ds, e, r⟩ := t
    exact Or.inr ⟨_, _, _, _, rfl⟩

theorem processAll_fst (folder : String) (es : List AudioEntry) :
    (processAll folder es).1 = es.filterMap (fun e => (processEntry folder e).1) := by
  induction es with
  | nil => rfl
  | cons e es ih =>
    rw [List.filterMap_cons]
    cases h : (processEntry folder e).1 with
    | none => simp [processAll, h, ih]
    | some r => simp [processAll, h, ih]

theorem processAll_snd (folder : String) (es : List AudioEntry) :
    (processAll folder es).2 = es.flatMap (fun e => (processEntry folder e).2) := by
  induction es with
  | nil => rfl
  | cons e es ih => simp [processAll, ih]

theorem processEntry_some (folder : String) (e : AudioEntry) (r : Rec)
    (h : (processEntry folder e).1 = some r) :
    r.file = folder ++ "/" ++ e.name ∧
      parse_filename e.name =
        (some r.speaker, some r.gender, some r.age, some r.birth_year) := by
  rcases parse_shape e.name with hp | ⟨sp, g, a, b, hp⟩
  · rw [processEntry, hp] at h
    simp at h
  · rw [processEntry, hp] at h
    rcases e.txt with - | t <;>
      · simp only [Option.some.injEq] at h
        subst h
        simp [hp]

theorem processEntry_none (folder : String) (e : AudioEntry)
    (h : parse_filename e.name = (none, none, none, none)) :
    processEntry folder e = (none, ["Warning: Could not parse filename: " ++ e.name]) := by
  rw [processEntry, h]

theorem lookup_map_self (cs : List String) (f : String → Value) (k : String)
    (hk : k ∈ cs) :
    lookup cs (cs.map f) k = f k := by
  induction cs with
  | nil => cases hk
  | cons c cs ih =>
    simp only [List.map_cons, lookup]
    by_cases h : c = k
    · subst h; simp
    · rw [if_neg h]
      exact ih (by rcases List.mem_cons.mp hk with h1 | h1; exact absurd h1.symm h; exact h1)

theorem filterMap_map_sublist {α β γ : Type} (l : List α) (g : α → Option β)
    (f : β → γ) (fn : α → γ) (hg : ∀ a b, g a = some b → f b = fn a) :
    ((l.filterMap g).map f).Sublist (l.map fn) := by
  induction l with
  | nil => simp
  | cons a l ih =>
    rw [List.filterMap_cons, List.map_cons]
    cases ha : g a with
    | none => exact ih.cons (fn a)
    | some b => rw [List.map_cons, hg a b ha]; exact ih.cons₂ (fn a)

theorem string_append_left_cancel (a : String) (x y : String)
    (h : a ++ x = a ++ y) : x = y := by
  apply String.ext
  have hd := congrArg String.data h
  rw [String.data_append, String.data_append] at hd
  exact List.append_cancel_left hd

theorem mem_audioList (entries : List AudioEntry) (e : AudioEntry)
    (he : e ∈ entries) (ha : isAudioName e.name = true) :
    e ∈ audioList entries := by
  unfold audioList
  rw [(List.perm_insertionSort _ _).mem_iff]
  exact List.mem_filter.mpr ⟨he, ha⟩

theorem selected_row (r : Rec) :
    column_order.map
        (lookup ["file", "speaker", "gender", "age", "birth_year", "transcription", "emotion"]
          (recToRow r ++ [Value.str "unknown"])) =
      [.str r.file, .str r.speaker, .str r.gender, .int r.age, .int r.birth_year,
       .str "unknown", .str r.transcription] := by
  rfl

theorem addEmotion_buildFrame (records : List Rec) (hne : records.isEmpty = false) :
    addEmotion (buildFrame records) =
      { columns := ["file", "speaker", "gender", "age", "birth_year", "transcription", "emotion"]
        rows := records.map (fun r => recToRow r ++ [Value.str "unknown"]) } := by
  simp only [addEmotion, buildFrame, hne, Bool.false_eq_true, if_false, List.map_map]
  refine congrArg (Frame.mk _) (List.map_congr_left (fun r _ => rfl))

theorem selectCols_of_present (cols cnames : List String) (rws : List (List Value))
    (hc : (cols.all fun c => cnames.contains c) = true) :
    selectCols cols { columns := cnames, rows := rws } =
      .ok { columns := cols, rows := rws.map (fun r => cols.map (lookup cnames r)) } := by
  have hc' : ∀ x ∈ cols, x ∈ cnames := by
    intro x hx
    simpa using List.all_eq_true.mp hc x hx
  simp [selectCols]
  exact hc'

theorem finalizeFrame_of_records (records : List Rec) (hne : records.isEmpty = false) :
    finalizeFrame (addEmotion (buildFrame records)) =
      .ok { indexName := "file"
            keys := records.map (fun r => .str r.file)
            columns := finalColumns
            rows := records.map finalRow } := by
  rw [finalizeFrame, addEmotion_buildFrame records hne,
    selectCols_of_present _ _ _ (by decide)]
  refine congrArg Except.ok ?_
  simp only [set_index, List.map_map]
  congr 1

theorem process_database_eq (folder : String) (entries : List AudioEntry)
    (h : (processAll folder (audioList entries)).1 ≠ []) :
    process_database folder entries =
      ((processAll folder (audioList entries)).2,
        .ok { indexName := "file"
              keys := (processAll folder (audioList entries)).1.map (fun r => .str r.file)
              columns := finalColumns
              rows := (processAll folder (audioList entries)).1.map finalRow }) := by
  have hne : (processAll folder (audioList entries)).1.isEmpty = false := by
    cases hc : (processAll folder (audioList entries)).1 with
    | nil => exact absurd hc h
    | cons r rs => rfl
  rw [process_database]
  rw [finalizeFrame_of_records _ hne]

theorem finalizeFrame_nil :
    finalizeFrame (addEmotion (buildFrame [])) = .error "KeyError: columns not in index" := rfl

theorem records_of_ok (folder : String) (entries : List AudioEntry)
    (idf : IndexedFrame) (hok : (process_database folder entries).2 = .ok idf) :
    (processAll folder (audioList entries)).1 ≠ [] := by
  intro hnil
  have herr : (process_database folder entries).2 = .error "KeyError: columns not in index" := by
    show finalizeFrame (addEmotion (buildFrame (processAll folder (audioList entries)).1)) = _
    rw [hnil]
    exact finalizeFrame_nil
  rw [herr] at hok
  exact Except.noConfusion hok

theorem frame_of_ok (folder : String) (entries : List AudioEntry)
    (idf : IndexedFrame) (hok : (process_database folder entries).2 = .ok idf) :
    idf = { indexName := "file"
            keys := (processAll folder (audioList entries)).1.map (fun r => .str r.file)
            columns := finalColumns
            rows := (processAll folder (audioList entries)).1.map finalRow } := by
  have hne := records_of_ok folder entries idf hok
  have heq := process_database_eq folder entries hne
  rw [heq] at hok
  exact (Except.ok.injEq _ _ ▸ hok).symm

/-- C1: for every filename accepted by the grammar, the parse yields
`age = 2025 - birth_year`, hence `age + birth_year = 2025` for every
parsed record. -/
theorem c1_age_plus_birth_year
    (s sp gd : String) (a b : Int)
    (h : parse_filename s = (some sp, some gd, some a, some b)) :
    a + b = 2025 ∧ a = 2025 - b := by
  unfold parse_filename at h
  cases hm : matchGrammar s.data with
  | none => rw [hm] at h; simp at h
  | some t =>
    obtain ⟨y, g, ds, e, rest⟩ := t
    rw [hm] at h
    simp only [Prod.mk.injEq, Option.some.injEq] at h
    obtain ⟨-, -, ha, hb⟩ := h
    subst ha hb
    omega

/-- C1 witness at the spec's scenario filename. -/
theorem c1_age_plus_birth_year_witness :
    (34 : Int) + 1991 = 2025 ∧ (34 : Int) = 2025 - 1991 :=
  c1_age_plus_birth_year "G_1991_M_26_st.WAV" "M_26" "male" 34 1991 (by decide)

/-- C3: the claim says a scan of a directory with no audio files completes
successfully with an empty, correctly-schemed table.  The code instead
raises: with no records, `pd.DataFrame([])` has no columns, so the
`df[column_order]` selection raises a `KeyError`.  This theorem evaluates
the pipeline at such an input (the directory exists and holds one
non-audio file): the run ends in the error, not an empty table. -/
theorem c3_empty_input_raises :
    process_database "data" [{ name := "notes.txt", txt := none }] =
      ([], .error "KeyError: columns not in index") := rfl

/-- C5: a scanned file whose name does not match the grammar is parsed to
the all-`none` tuple, a diagnostic for it is printed, no row for it occurs
in any successfully produced table, and every other parseable audio file
still yields its row. -/
theorem c5_unmatched_file_skipped (folder : String) (entries : List AudioEntry)
    (e : AudioEntry) (he : e ∈ entries) (ha : isAudioName e.name = true)
    (hnm : matchGrammar e.name.data = none) :
    parse_filename e.name = (none, none, none, none) ∧
    ("Warning: Could not parse filename: " ++ e.name) ∈ (process_database folder entries).1 ∧
    (∀ idf, (process_database folder entries).2 = .ok idf →
      Value.str (folder ++ "/" ++ e.name) ∉ idf.keys) ∧
    (∀ idf, (process_database folder entries).2 = .ok idf →
      ∀ e2 ∈ entries, isAudioName e2.name = true →
        ∀ sp g a b, parse_filename e2.name = (some sp, some g, some a, some b) →
          Value.str (folder ++ "/" ++ e2.name) ∈ idf.keys) := by
  have hparse : parse_filename e.name = (none, none, none, none) := by
    rw [parse_filename, hnm]
  have hmemA : e ∈ audioList entries := mem_audioList entries e he ha
  refine ⟨hparse, ?_, ?_, ?_⟩
  · show _ ∈ (processAll folder (audioList entries)).2
    rw [processAll_snd]
    refine List.mem_flatMap.mpr ⟨e, hmemA, ?_⟩
    rw [processEntry_none folder e hparse]
    exact List.mem_singleton.mpr rfl
  · intro idf hok hmem
    rw [frame_of_ok folder entries idf hok] at hmem
    simp only [List.mem_map] at hmem
    obtain ⟨r, hr, hfile⟩ := hmem
    rw [processAll_fst] at hr
    obtain ⟨e2, -, he2r⟩ := List.mem_filterMap.mp hr
    obtain ⟨hrfile, hp2⟩ := processEntry_some folder e2 r he2r
    have hff : r.file = folder ++ "/" ++ e.name := Value.str.inj hfile
    have hnames : e2.name = e.name :=
      string_append_left_cancel (folder ++ "/") _ _ (hrfile.symm.trans hff)
    rw [hnames, hparse] at hp2
    exact Prod.noConfusion hp2 (fun h1 _ => Option.noConfusion h1)
  · intro idf hok e2 he2 ha2 sp g a b hp2
    rw [frame_of_ok folder entries idf hok]
    obtain ⟨r, hr⟩ : ∃ r, (processEntry folder e2).1 = some r := by
      simp only [processEntry, hp2]
      exact ⟨_, rfl⟩
    obtain ⟨hrfile, -⟩ := processEntry_some folder e2 r hr
    refine List.mem_map.mpr ⟨r, ?_, by rw [hrfile]⟩
    rw [processAll_fst]
    exact List.mem_filterMap.mpr ⟨e2, mem_audioList entries e2 he2 ha2, hr⟩

/-- C5 witness: a directory with one parseable audio file, one
non-matching audio file and a non-audio file. -/
theorem c5_unmatched_file_skipped_witness :
    parse_filename "random_file.WAV" = (none, none, none, none) ∧
    ("Warning: Could not parse filename: " ++ "random_file.WAV") ∈
      (process_database "data"
        [{ name := "G_1991_M_26_st.WAV", txt := none },
         { name := "random_file.WAV", txt := none }]).1 ∧
    (∀ idf, (process_database "data"
        [{ name := "G_1991_M_26_st.WAV", txt := none },
         { name := "random_file.WAV", txt := none }]).2 = .ok idf →
      Value.str ("data" ++ "/" ++ "random_file.WAV") ∉ idf.keys) ∧
    (∀ idf, (process_database "data"
        [{ name := "G_1991_M_26_st.WAV", txt := none },
         { name := "random_file.WAV", txt := none }]).2 = .ok idf →
      ∀ e2 ∈ [({ name := "G_1991_M_26_st.WAV", txt := none } : AudioEntry),
              { name := "random_file.WAV", txt := none }], isAudioName e2.name = true →
        ∀ sp g a b, parse_filename e2.name = (some sp, some g, some a, some b) →
          Value.str ("data" ++ "/" ++ e2.name) ∈ idf.keys) :=
  c5_unmatched_file_skipped "data"
    [{ name := "G_1991_M_26_st.WAV", txt := none },
     { name := "random_file.WAV", txt := none }]
    { name := "random_file.WAV", txt := none }
    (by simp) (by decide) (by decide)

/-- C6: in every successfully produced output table, the `emotion` cell of
every row is the literal `"unknown"`, the schema is the fixed order
`file, speaker, gender, age, birth_year, emotion, transcription` (with
`file` pulled out as the index), and — the directory listing having
distinct names — the `file` keys are pairwise distinct. -/
theorem c6_schema_and_emotion (folder : String) (entries : List AudioEntry)
    (hnodup : (entries.map (fun e => e.name)).Nodup)
    (idf : IndexedFrame) (hok : (process_database folder entries).2 = .ok idf) :
    idf.indexName = "file" ∧
    "file" :: idf.columns = column_order ∧
    (∀ row ∈ idf.rows, lookup idf.columns row "emotion" = .str "unknown") ∧
    idf.keys.Nodup := by
  have hidf := frame_of_ok folder entries idf hok
  subst hidf
  refine ⟨rfl, rfl, ?_, ?_⟩
  · intro row hrow
    obtain ⟨r, -, hr⟩ := List.mem_map.mp hrow
    rw [← hr]
    rfl
  · have hnamesub :
        ((audioList entries).map (fun e => e.name)).Nodup := by
      have hperm : List.Perm (audioList entries) (entries.filter (fun e => isAudioName e.name)) :=
        List.perm_insertionSort _ _
      have hsub : ((entries.filter (fun e => isAudioName e.name)).map (fun e => e.name)).Nodup :=
        ((List.filter_sublist _).map _).nodup hnodup
      exact ((hperm.map _).nodup_iff).mpr hsub
    have hfiles :
        ((audioList entries).map (fun e => Value.str (folder ++ "/" ++ e.name))).Nodup := by
      have hmm :
          (audioList entries).map (fun e => Value.str (folder ++ "/" ++ e.name)) =
            ((audioList entries).map (fun e => e.name)).map
              (fun s => Value.str (folder ++ "/" ++ s)) := by
        rw [List.map_map]
        rfl
      rw [hmm]
      refine hnamesub.map ?_
      intro x y hxy
      exact string_append_left_cancel (folder ++ "/") x y (Value.str.inj hxy)
    refine List.Sublist.nodup ?_ hfiles
    rw [processAll_fst]
    refine filterMap_map_sublist _ _ _ _ ?_
    intro e2 r hr
    exact congrArg Value.str (processEntry_some folder e2 r hr).1

/-- C6 witness: a two-file directory. -/
theorem c6_schema_and_emotion_witness :
    ("file" : String) = "file" ∧
    "file" :: finalColumns = column_order ∧
    (∀ row ∈ [[Value.str "F_07", Value.str "female", Value.int 37, Value.int 1988,
               Value.str "unknown", Value.str "hello"],
              [Value.str "M_26", Value.str "male", Value.int 34, Value.int 1991,
               Value.str "unknown", Value.str ""]],
      lookup finalColumns row "emotion" = Value.str "unknown") ∧
    ([Value.str "data/G_1988_F_07_st.wav", Value.str "data/G_1991_M_26_st.WAV"]).Nodup :=
  c6_schema_and_emotion "data"
    [{ name := "G_1991_M_26_st.WAV", txt := none },
     { name := "G_1988_F_07_st.wav", txt := some (.ok "hello") }]
    (by decide)
    { indexName := "file",
      keys := [.str "data/G_1988_F_07_st.wav", .str "data/G_1991_M_26_st.WAV"],
      columns := finalColumns,
      rows := [[.str "F_07", .str "female", .int 37, .int 1988, .str "unknown", .str "hello"],
               [.str "M_26", .str "male", .int 34, .int 1991, .str "unknown", .str ""]] }
    rfl

/-- C7: for a grammar-matching audio file whose sibling transcript is
absent, or whose transcript read raises, the record is still produced with
an empty transcription and a diagnostic; the produced record is the same
in both cases, and a run over such a file completes successfully with the
row present (transcription cell empty). -/
theorem c7_missing_or_failed_transcript (folder name sp g : String) (a b : Int)
    (hp : parse_filename name = (some sp, some g, some a, some b))
    (ha : isAudioName name = true) :
    processEntry folder { name := name, txt := none } =
      (some { file := folder ++ "/" ++ name, speaker := sp, gender := g, age := a,
              birth_year := b, transcription := "" },
       ["Warning: No transcription file found for " ++ name]) ∧
    processEntry folder { name := name, txt := some (.error ()) } =
      (some { file := folder ++ "/" ++ name, speaker := sp, gender := g, age := a,
              birth_year := b, transcription := "" },
       ["Warning: Could not read " ++ name]) ∧
    (processEntry folder { name := name, txt := none }).1 =
      (processEntry folder { name := name, txt := some (.error ()) }).1 ∧
    (∀ txt : Option (Except Unit String), txt = none ∨ txt = some (.error ()) →
      (process_database folder [{ name := name, txt := txt }]).2 =
        .ok { indexName := "file"
              keys := [.str (folder ++ "/" ++ name)]
              columns := finalColumns
              rows := [[.str sp, .str g, .int a, .int b, .str "unknown", .str ""]] }) := by
  have h1 : processEntry folder { name := name, txt := none } =
      (some { file := folder ++ "/" ++ name, speaker := sp, gender := g, age := a,
              birth_year := b, transcription := "" },
       ["Warning: No transcription file found for " ++ name]) := by
    simp [processEntry, hp]
  have h2 : processEntry folder { name := name, txt := some (.error ()) } =
      (some { file := folder ++ "/" ++ name, speaker := sp, gender := g, age := a,
              birth_year := b, transcription := "" },
       ["Warning: Could not read " ++ name]) := by
    simp [processEntry, hp, read_transcription]
  refine ⟨h1, h2, by rw [h1, h2], ?_⟩
  intro txt htxt
  have hlist : audioList [{ name := name, txt := txt }] = [{ name := name, txt := txt }] := by
    simp [audioList, List.filter, ha]
  have hrec : processEntry folder { name := name, txt := txt } =
      (some { file := folder ++ "/" ++ name, speaker := sp, gender := g, age := a,
              birth_year := b, transcription := "" },
       (processEntry folder { name := name, txt := txt }).2) := by
    rcases htxt with h | h <;> subst h
    · rw [h1]
    · rw [h2]
  show finalizeFrame (addEmotion (buildFrame
      (processAll folder (audioList [{ name := name, txt := txt }])).1)) = _
  rw [hlist]
  have hall : (processAll folder [{ name := name, txt := txt }]).1 =
      [{ file := folder ++ "/" ++ name, speaker := sp, gender := g, age := a,
         birth_year := b, transcription := "" }] := by
    rw [processAll_fst]
    simp only [List.filterMap]
    rw [hrec]
  rw [hall, finalizeFrame_of_records
      [{ file := folder ++ "/" ++ name, speaker := sp, gender := g, age := a,
         birth_year := b, transcription := "" }] rfl]
  rfl

/-- C7 witness: the spec's scenario `G_1988_F_07_st.wav` with no sibling
transcript. -/
theorem c7_missing_or_failed_transcript_witness :
    processEntry "data" { name := "G_1988_F_07_st.wav", txt := none } =
      (some { file := "data" ++ "/" ++ "G_1988_F_07_st.wav", speaker := "F_07",
              gender := "female", age := 37, birth_year := 1988, transcription := "" },
       ["Warning: No transcription file found for " ++ "G_1988_F_07_st.wav"]) :=
  (c7_missing_or_failed_transcript "data" "G_1988_F_07_st.wav" "F_07" "female" 37 1988
    (by decide) (by decide)).1

/-- C10: `parse_filename` is all-or-nothing — the result tuple is either
all `none` or all `some` — and every emitted record carries exactly the
four parsed values, so every row of the output has all four fields
populated. -/
theorem c10_all_or_nothing (s folder : String) (e : AudioEntry) (r : Rec)
    (h : (processEntry folder e).1 = some r) :
    (parse_filename s = (none, none, none, none) ∨
      ∃ sp g a b, parse_filename s = (some sp, some g, some a, some b)) ∧
    parse_filename e.name = (some r.speaker, some r.gender, some r.age, some r.birth_year) :=
  ⟨parse_shape s, (processEntry_some folder e r h).2⟩

/-- C10 witness. -/
theorem c10_all_or_nothing_witness :
    (parse_filename "random_file.WAV" = (none, none, none, none) ∨
      ∃ sp g a b, parse_filename "random_file.WAV" = (some sp, some g, some a, some b)) ∧
    parse_filename "G_1991_M_26_st.WAV" =
      (some "M_26", some "male", some 34, some 1991) :=
  c10_all_or_nothing "random_file.WAV" "data" { name := "G_1991_M_26_st.WAV", txt := none }
    { file := "data" ++ "/" ++ "G_1991_M_26_st.WAV", speaker := "M_26", gender := "male",
      age := 34, birth_year := 1991, transcription := "" }
    (by decide)

/-! ## Merger lemmas -/

theorem keyTuple_sel (bcols : List String) (r : List Value) (u : List String) :
    keyTuple (common_cols ++ u) ((common_cols ++ u).map (lookup bcols r)) =
      keyTuple bcols r := by
  unfold keyTuple
  refine List.map_congr_left (fun k hk => ?_)
  exact lookup_map_self _ _ _ (List.mem_append_left _ hk)

theorem uniqueCols_not_common (B : Frame) :
    ∀ c ∈ uniqueCols B, common_cols.contains c = false := by
  intro c hc
  have := (List.mem_filter.mp hc).2
  exact (Bool.not_eq_true' _) ▸ this

theorem filter_not_common_append (u : List String)
    (hu : ∀ c ∈ u, common_cols.contains c = false) :
    (common_cols ++ u).filter (fun c => !(common_cols.contains c)) = u := by
  rw [List.filter_append]
  have h1 : common_cols.filter (fun c => !(common_cols.contains c)) = [] := by decide
  rw [h1, List.nil_append]
  refine List.filter_eq_self.mpr fun c hc => ?_
  rw [hu c hc]
  rfl

theorem merge_inner_ok (A : Frame) (cnames : List String) (rws : List (List Value))
    (hA : (common_cols.all fun c => A.columns.contains c) = true)
    (hB : (common_cols.all fun c => cnames.contains c) = true) :
    merge_inner A { columns := cnames, rows := rws } =
      .ok { columns := A.columns ++ cnames.filter (fun c => !(common_cols.contains c))
            rows := A.rows.flatMap (fun ra =>
              (rws.filter (fun rb => keyTuple cnames rb = keyTuple A.columns ra)).map
                (fun rb => ra ++
                  (cnames.filter (fun c => !(common_cols.contains c))).map (lookup cnames rb))) } := by
  unfold merge_inner
  rw [show ((common_cols.all fun c => A.columns.contains c) &&
      (common_cols.all fun c =>
        (Frame.mk cnames rws).columns.contains c)) = true from by rw [hA]; exact hB]
  rfl

theorem filter_map_beta {α β : Type} (f : α → β) (p : β → Bool) (l : List α) :
    (l.map f).filter p = (l.filter (fun a => p (f a))).map f := by
  rw [List.filter_map]
  rfl

theorem map_map_beta {α β γ : Type} (f : α → β) (g : β → γ) (l : List α) :
    (l.map f).map g = l.map (fun a => g (f a)) := by
  rw [List.map_map]
  rfl

theorem contains_append_of_all (u : List String) :
    (common_cols.all fun c => (common_cols ++ u).contains c) = true := by
  refine List.all_eq_true.mpr fun c hc => ?_
  exact List.elem_iff.mpr (List.mem_append_left _ hc)

theorem merge_script_ok (A B : Frame)
    (hA : (common_cols.all fun c => A.columns.contains c) = true)
    (hB : (common_cols.all fun c => B.columns.contains c) = true) :
    merge_script A B =
      .ok { columns := A.columns ++ uniqueCols B
            rows := A.rows.flatMap (fun ra =>
              (B.rows.filter (fun rb => keyTuple B.columns rb = keyTuple A.columns ra)).map
                (fun rb => ra ++ (uniqueCols B).map (lookup B.columns rb))) } := by
  have hall : ((common_cols ++ uniqueCols B).all fun c => B.columns.contains c) = true := by
    rw [List.all_append]
    refine Bool.and_eq_true_iff.mpr ⟨hB, ?_⟩
    refine List.all_eq_true.mpr fun c hc => ?_
    exact List.elem_iff.mpr (List.mem_filter.mp hc).1
  have hsel : selectCols (common_cols ++ uniqueCols B) B =
      .ok { columns := common_cols ++ uniqueCols B
            rows := B.rows.map (fun r => (common_cols ++ uniqueCols B).map (lookup B.columns r)) } :=
    selectCols_of_present _ _ _ hall
  have hms : merge_script A B = merge_inner A
      { columns := common_cols ++ uniqueCols B
        rows := B.rows.map (fun r => (common_cols ++ uniqueCols B).map (lookup B.columns r)) } := by
    unfold merge_script
    rw [hsel]
  rw [hms, merge_inner_ok A (common_cols ++ uniqueCols B) _ hA (contains_append_of_all _)]
  rw [filter_not_common_append (uniqueCols B) (uniqueCols_not_common B)]
  refine congrArg Except.ok (congrArg (Frame.mk (A.columns ++ uniqueCols B)) ?_)
  refine congrArg A.rows.flatMap (funext fun ra => ?_)
  rw [filter_map_beta, map_map_beta]
  have hfil : ∀ rb : List Value,
      (decide (keyTuple (common_cols ++ uniqueCols B)
          ((common_cols ++ uniqueCols B).map (lookup B.columns rb)) = keyTuple A.columns ra)) =
        decide (keyTuple B.columns rb = keyTuple A.columns ra) := by
    intro rb
    rw [keyTuple_sel]
  rw [List.filter_congr (fun rb _ => hfil rb)]
  refine List.map_congr_left (fun rb _ => ?_)
  show ra ++ _ = ra ++ _
  refine congrArg (ra ++ ·) ?_
  refine List.map_congr_left (fun c hc => ?_)
  exact lookup_map_self _ _ _ (List.mem_append_right _ hc)

theorem countP_eq_one_of_nodup_mem {α : Type} [DecidableEq α] (l : List α) (t : α)
    (hn : l.Nodup) (ht : t ∈ l) : l.countP (fun x => decide (x = t)) = 1 := by
  induction l with
  | nil => cases ht
  | cons a l ih =>
    rw [List.countP_cons]
    rcases List.mem_cons.mp ht with h | h
    · subst h
      have hz : l.countP (fun x => decide (x = t)) = 0 := by
        rw [List.countP_eq_zero]
        intro x hx
        simp only [decide_eq_true_eq]
        intro hxa
        exact (List.nodup_cons.mp hn).1 (hxa ▸ hx)
      simp [hz]
    · have hne : a ≠ t := fun he => (List.nodup_cons.mp hn).1 (he ▸ h)
      have ih2 := ih (List.nodup_cons.mp hn).2 h
      simp [ih2, hne]

theorem sum_map_one {α : Type} (l : List α) : (l.map (fun _ => (1 : Nat))).sum = l.length := by
  induction l with
  | nil => rfl
  | cons a l ih =>
    simp [ih]
    omega

/-- C2: the merger is an inner join keyed on equality of the full tuple of
all 10 key columns: every output row comes from a pair of input rows whose
10-column key tuples agree (so a row present in only one table is
dropped), and when the two tables have disjoint key tuples the merged
result has zero rows. -/
theorem c2_inner_join_semantics (A B : Frame)
    (hA : (common_cols.all fun c => A.columns.contains c) = true)
    (hB : (common_cols.all fun c => B.columns.contains c) = true) :
    ∃ M, merge_script A B = .ok M ∧
      (∀ row ∈ M.rows, ∃ ra ∈ A.rows, ∃ rb ∈ B.rows,
        keyTuple B.columns rb = keyTuple A.columns ra ∧
        row = ra ++ (uniqueCols B).map (lookup B.columns rb)) ∧
      ((∀ ra ∈ A.rows, ∀ rb ∈ B.rows, keyTuple B.columns rb ≠ keyTuple A.columns ra) →
        M.rows = []) := by
  refine ⟨_, merge_script_ok A B hA hB, ?_, ?_⟩
  · intro row hrow
    simp only [List.mem_flatMap, List.mem_map, List.mem_filter, decide_eq_true_eq] at hrow
    obtain ⟨ra, hra, rb, ⟨hrb, hkey⟩, hrow⟩ := hrow
    exact ⟨ra, hra, rb, hrb, hkey, hrow.symm⟩
  · intro hdisj
    refine List.eq_nil_iff_forall_not_mem.mpr fun row hrow => ?_
    simp only [List.mem_flatMap, List.mem_map, List.mem_filter, decide_eq_true_eq] at hrow
    obtain ⟨ra, hra, rb, ⟨hrb, hkey⟩, -⟩ := hrow
    exact hdisj ra hra rb hrb hkey

/-- A one-row key-only table used to witness C2 (key tuple `f1`). -/
def leftOneRow : Frame :=
  { columns := common_cols,
    rows := [[.str "f1", .int 0, .int 1, .str "s", .str "g", .int 30, .int 1995,
              .int 1, .str "e", .str "t"]] }

/-- A one-row key-only table used to witness C2 (key tuple `f2`). -/
def rightOneRow : Frame :=
  { columns := common_cols,
    rows := [[.str "f2", .int 0, .int 1, .str "s", .str "g", .int 30, .int 1995,
              .int 1, .str "e", .str "t"]] }

/-- C2 witness: two single-row tables with different key tuples. -/
theorem c2_inner_join_semantics_witness :
    ∃ M, merge_script leftOneRow rightOneRow = .ok M ∧
      (∀ row ∈ M.rows, ∃ ra ∈ leftOneRow.rows, ∃ rb ∈ rightOneRow.rows,
        keyTuple rightOneRow.columns rb = keyTuple leftOneRow.columns ra ∧
        row = ra ++ (uniqueCols rightOneRow).map (lookup rightOneRow.columns rb)) ∧
      ((∀ ra ∈ leftOneRow.rows, ∀ rb ∈ rightOneRow.rows,
        keyTuple rightOneRow.columns rb ≠ keyTuple leftOneRow.columns ra) → M.rows = []) :=
  c2_inner_join_semantics leftOneRow rightOneRow (by decide) (by decide)

/-- C9: if any of the 10 key columns is missing from either input table,
the merger fails with a fatal schema error (a pandas `KeyError`) before
any merged output is produced, instead of dropping the key from the join
condition. -/
theorem c9_missing_key_fatal (A B : Frame) (k : String) (hk : k ∈ common_cols)
    (hmiss : k ∉ A.columns ∨ k ∉ B.columns) :
    ∃ msg, merge_script A B = .error msg := by
  rcases hmiss with hmA | hmB
  · rcases hsel : selectCols (common_cols ++ uniqueCols B) B with msg | sel
    · refine ⟨msg, ?_⟩
      unfold merge_script
      rw [hsel]
    · refine ⟨"KeyError: merge key not in frame", ?_⟩
      have hAf : (common_cols.all fun c => A.columns.contains c) = false := by
        refine Bool.eq_false_iff.mpr fun hall => ?_
        exact hmA (List.elem_iff.mp (List.all_eq_true.mp hall k hk))
      unfold merge_script
      rw [hsel]
      show merge_inner A sel = _
      unfold merge_inner
      rw [hAf]
      rfl
  · refine ⟨"KeyError: columns not in index", ?_⟩
    have hcond : ((common_cols ++ uniqueCols B).all fun c => B.columns.contains c) = false := by
      refine Bool.eq_false_iff.mpr fun hall => ?_
      exact hmB (List.elem_iff.mp (List.all_eq_true.mp hall k (List.mem_append_left _ hk)))
    unfold merge_script selectCols
    rw [hcond]
    rfl

/-- C9 witness: the left table is missing every key column. -/
theorem c9_missing_key_fatal_witness :
    ∃ msg, merge_script { columns := ["a"], rows := [] }
        { columns := common_cols, rows := [] } = .error msg :=
  c9_missing_key_fatal { columns := ["a"], rows := [] }
    { columns := common_cols, rows := [] } "file" (by decide) (Or.inl (by decide))

theorem countP_map_beta {α β : Type} (p : β → Bool) (f : α → β) (l : List α) :
    l.countP (fun a => p (f a)) = (l.map f).countP p := by
  rw [List.countP_map]
  rfl

theorem merged_rows_length (A B : Frame)
    (hkeys : A.rows.map (keyTuple A.columns) = B.rows.map (keyTuple B.columns))
    (hnodup : (A.rows.map (keyTuple A.columns)).Nodup) :
    (A.rows.flatMap (fun ra =>
      (B.rows.filter (fun rb => keyTuple B.columns rb = keyTuple A.columns ra)).map
        (fun rb => ra ++ (uniqueCols B).map (lookup B.columns rb)))).length = A.rows.length := by
  rw [List.length_flatMap]
  have hone : ∀ ra ∈ A.rows,
      (List.length ∘ fun ra =>
        (B.rows.filter (fun rb => keyTuple B.columns rb = keyTuple A.columns ra)).map
          (fun rb => ra ++ (uniqueCols B).map (lookup B.columns rb))) ra = (fun _ => (1 : Nat)) ra := by
    intro ra hra
    show ((B.rows.filter _).map _).length = 1
    rw [List.length_map, ← List.countP_eq_length_filter]
    rw [countP_map_beta (fun x => decide (x = keyTuple A.columns ra)) (keyTuple B.columns) B.rows]
    rw [← hkeys]
    exact countP_eq_one_of_nodup_mem _ _ hnodup (List.mem_map.mpr ⟨ra, hra, rfl⟩)
  rw [List.map_congr_left hone]
  exact sum_map_one A.rows

/-- Two-row left table with a duplicated key tuple (unique column `a`). -/
def dupKeyLeft : Frame :=
  { columns := common_cols ++ ["a"],
    rows := [[.str "f", .int 0, .int 1, .str "s", .str "g", .int 30, .int 1995,
              .int 1, .str "e", .str "t", .int 1],
             [.str "f", .int 0, .int 1, .str "s", .str "g", .int 30, .int 1995,
              .int 1, .str "e", .str "t", .int 2]] }

/-- Two-row right table with the same duplicated key tuple (unique column `b`). -/
def dupKeyRight : Frame :=
  { columns := common_cols ++ ["b"],
    rows := [[.str "f", .int 0, .int 1, .str "s", .str "g", .int 30, .int 1995,
              .int 1, .str "e", .str "t", .int 3],
             [.str "f", .int 0, .int 1, .str "s", .str "g", .int 30, .int 1995,
              .int 1, .str "e", .str "t", .int 4]] }

/-- Row count of a successful merge (`None` when the merge errored). -/
def okRowCount (r : Except String Frame) : Option Nat :=
  match r with
  | .ok M => some M.rows.length
  | .error _ => none

/-- C8 counterexample: two tables with identical key-column content (the
same key tuple duplicated twice on each side) and disjoint unique columns,
for which the inner join produces a 2x2 cross product — 4 rows, not the
input row count 2.  The claim as stated is false without a distinctness
condition on the key tuples. -/
theorem c8_row_count_counterexample :
    dupKeyLeft.rows.map (keyTuple dupKeyLeft.columns) =
      dupKeyRight.rows.map (keyTuple dupKeyRight.columns) ∧
    uniqueCols dupKeyLeft = ["a"] ∧ uniqueCols dupKeyRight = ["b"] ∧
    dupKeyLeft.rows.length = 2 ∧ dupKeyRight.rows.length = 2 ∧
    okRowCount (merge_script dupKeyLeft dupKeyRight) = some 4 ∧
    okRowCount (merge_script dupKeyLeft dupKeyRight) ≠ some dupKeyLeft.rows.length := by
  decide

/-- C8 (amended): for two input tables whose schemas are the 10 key
columns plus disjoint unique columns, with identical key-column content
and — the amendment — pairwise-distinct key tuples, the merged result has
the same row count as either input and column count
`10 + (unique columns of A) + (unique columns of B)`. -/
theorem c8_row_and_column_count (uA uB : List String) (A B : Frame)
    (hAc : A.columns = common_cols ++ uA) (hBc : B.columns = common_cols ++ uB)
    (huB : ∀ c ∈ uB, common_cols.contains c = false)
    (hkeys : A.rows.map (keyTuple A.columns) = B.rows.map (keyTuple B.columns))
    (hnodup : (A.rows.map (keyTuple A.columns)).Nodup) :
    ∃ M, merge_script A B = .ok M ∧
      M.rows.length = A.rows.length ∧ M.rows.length = B.rows.length ∧
      M.columns.length = 10 + uA.length + uB.length := by
  have hA : (common_cols.all fun c => A.columns.contains c) = true := by
    rw [hAc]; exact contains_append_of_all uA
  have hB : (common_cols.all fun c => B.columns.contains c) = true := by
    rw [hBc]; exact contains_append_of_all uB
  have huniqB : uniqueCols B = uB := by
    unfold uniqueCols
    rw [hBc]
    exact filter_not_common_append uB huB
  have hlenAB : A.rows.length = B.rows.length := by
    have hlm := congrArg List.length hkeys
    simpa [List.length_map] using hlm
  refine ⟨_, merge_script_ok A B hA hB, ?_, ?_, ?_⟩
  · exact merged_rows_length A B hkeys hnodup
  · show (A.rows.flatMap _).length = B.rows.length
    rw [← hlenAB]
    exact merged_rows_length A B hkeys hnodup
  · show (A.columns ++ uniqueCols B).length = 10 + uA.length + uB.length
    rw [huniqB, hAc, List.length_append, List.length_append]
    have h10 : common_cols.length = 10 := by decide
    omega

/-- Distinct-key left table for the C8 witness. -/
def distinctKeyLeft : Frame :=
  { columns := common_cols ++ ["a"],
    rows := [[.str "f1", .int 0, .int 1, .str "s", .str "g", .int 30, .int 1995,
              .int 1, .str "e", .str "t", .int 1],
             [.str "f2", .int 0, .int 1, .str "s", .str "g", .int 30, .int 1995,
              .int 1, .str "e", .str "t", .int 2]] }

/-- Distinct-key right table for the C8 witness. -/
def distinctKeyRight : Frame :=
  { columns := common_cols ++ ["b"],
    rows := [[.str "f1", .int 0, .int 1, .str "s", .str "g", .int 30, .int 1995,
              .int 1, .str "e", .str "t", .int 3],
             [.str "f2", .int 0, .int 1, .str "s", .str "g", .int 30, .int 1995,
              .int 1, .str "e", .str "t", .int 4]] }

/-- C8 witness: the amended statement at two concrete 2-row tables with
distinct key tuples. -/
theorem c8_row_and_column_count_witness :
    ∃ M, merge_script distinctKeyLeft distinctKeyRight = .ok M ∧
      M.rows.length = distinctKeyLeft.rows.length ∧
      M.rows.length = distinctKeyRight.rows.length ∧
      M.columns.length = 10 + List.length ["a"] + List.length ["b"] :=
  c8_row_and_column_count ["a"] ["b"] distinctKeyLeft distinctKeyRight rfl rfl
    (by decide) (by decide) (by decide)

/-! ## The prefix-match property of the grammar (C4) -/

theorem list_length_four {α : Type} (l : List α) (h : l.length = 4) :
    ∃ a b c d, l = [a, b, c, d] := by
  cases l with
  | nil => simp at h
  | cons a l1 =>
    cases l1 with
    | nil => simp at h
    | cons b l2 =>
      cases l2 with
      | nil => simp at h
      | cons c l3 =>
        cases l3 with
        | nil => simp at h
        | cons d l4 =>
          cases l4 with
          | nil => exact ⟨a, b, c, d, rfl⟩
          | cons e l5 => simp at h

theorem takeDigits_all_append (ds : List Char) (hds : ∀ c ∈ ds, digit c = true)
    (c0 : Char) (hc0 : digit c0 = false) (r : List Char) :
    takeDigits (ds ++ c0 :: r) = (ds, c0 :: r) := by
  induction ds with
  | nil => simp [takeDigits, hc0]
  | cons a l ih =>
    have ha : digit a = true := hds a (List.mem_cons_self _ _)
    rw [List.cons_append]
    simp [takeDigits, ha, ih (fun c hc => hds c (List.mem_cons_of_mem _ hc))]

theorem matchGrammar_full_match (d1 d2 d3 d4 gc : Char) (nd extd td : List Char)
    (h1 : digit d1 = true) (h2 : digit d2 = true)
    (h3 : digit d3 = true) (h4 : digit d4 = true)
    (hgc : (gc = 'M' || gc = 'F') = true)
    (hnd : ∀ c ∈ nd, digit c = true) (hne : nd ≠ [])
    (hext : ∀ r, matchWavExt (extd ++ r) = some (extd, r)) :
    matchGrammar ('G' :: '_' :: d1 :: d2 :: d3 :: d4 :: '_' :: gc :: '_' ::
        (nd ++ '_' :: 's' :: 't' :: '.' :: (extd ++ td))) =
      some ([d1, d2, d3, d4], gc, nd, extd, td) := by
  have hnemp : nd.isEmpty = false := by
    cases hcn : nd with
    | nil => exact absurd hcn hne
    | cons a l => rfl
  have htd := takeDigits_all_append nd hnd '_' rfl ('s' :: 't' :: '.' :: (extd ++ td))
  simp [matchGrammar, matchYear, h1, h2, h3, h4, hgc, htd, hnemp, hext]

theorem parse_filename_of_isSome (s : String) (h : (matchGrammar s.data).isSome = true) :
    ∃ sp gd a b, parse_filename s = (some sp, some gd, some a, some b) := by
  unfold parse_filename
  cases hmg : matchGrammar s.data with
  | none => rw [hmg] at h; cases h
  | some v =>
    obtain ⟨yy, gg, dd, ee, rr⟩ := v
    exact ⟨_, _, _, _, rfl⟩

/-- C4: the grammar match is anchored only at the start of the filename
(`re.match` is a prefix match, not a full match): any filename that is a
full grammar match followed by arbitrary trailing characters is still
accepted and parsed. -/
theorem c4_prefix_match_tolerates_trailing (y g n ex t : String)
    (hy : y.length = 4) (hyd : ∀ c ∈ y.data, digit c = true)
    (hg : g = "M" ∨ g = "F")
    (hn : n.data ≠ []) (hnd : ∀ c ∈ n.data, digit c = true)
    (hex : ex = "WAV" ∨ ex = "wav") :
    ∃ sp gd a b,
      parse_filename ("G_" ++ y ++ "_" ++ g ++ "_" ++ n ++ "_st." ++ ex ++ t) =
        (some sp, some gd, some a, some b) := by
  obtain ⟨d1, d2, d3, d4, hy4⟩ := list_length_four y.data hy
  have h1 : digit d1 = true := hyd d1 (by rw [hy4]; simp)
  have h2 : digit d2 = true := hyd d2 (by rw [hy4]; simp)
  have h3 : digit d3 = true := hyd d3 (by rw [hy4]; simp)
  have h4 : digit d4 = true := hyd d4 (by rw [hy4]; simp)
  refine parse_filename_of_isSome _ ?_
  have hdata : ("G_" ++ y ++ "_" ++ g ++ "_" ++ n ++ "_st." ++ ex ++ t).data =
      'G' :: '_' :: d1 :: d2 :: d3 :: d4 :: '_' :: (g.data ++ '_' ::
        (n.data ++ '_' :: 's' :: 't' :: '.' :: (ex.data ++ t.data))) := by
    have e1 : ("G_" : String).data = ['G', '_'] := rfl
    have e2 : ("_" : String).data = ['_'] := rfl
    have e3 : ("_st." : String).data = ['_', 's', 't', '.'] := rfl
    simp [String.data_append, e1, e2, e3, hy4]
  rw [hdata]
  rcases hg with hg | hg <;> subst hg <;> rcases hex with hex | hex <;> subst hex
  · rw [show ("M" : String).data ++ '_' :: (n.data ++ '_' :: 's' :: 't' :: '.' ::
        (("WAV" : String).data ++ t.data)) = 'M' :: '_' :: (n.data ++ '_' :: 's' :: 't' :: '.' ::
        (['W', 'A', 'V'] ++ t.data)) from rfl]
    rw [matchGrammar_full_match d1 d2 d3 d4 'M' n.data ['W', 'A', 'V'] t.data
      h1 h2 h3 h4 rfl hnd hn (fun r => rfl)]
    rfl
  · rw [show ("M" : String).data ++ '_' :: (n.data ++ '_' :: 's' :: 't' :: '.' ::
        (("wav" : String).data ++ t.data)) = 'M' :: '_' :: (n.data ++ '_' :: 's' :: 't' :: '.' ::
        (['w', 'a', 'v'] ++ t.data)) from rfl]
    rw [matchGrammar_full_match d1 d2 d3 d4 'M' n.data ['w', 'a', 'v'] t.data
      h1 h2 h3 h4 rfl hnd hn (fun r => rfl)]
    rfl
  · rw [show ("F" : String).data ++ '_' :: (n.data ++ '_' :: 's' :: 't' :: '.' ::
        (("WAV" : String).data ++ t.data)) = 'F' :: '_' :: (n.data ++ '_' :: 's' :: 't' :: '.' ::
        (['W', 'A', 'V'] ++ t.data)) from rfl]
    rw [matchGrammar_full_match d1 d2 d3 d4 'F' n.data ['W', 'A', 'V'] t.data
      h1 h2 h3 h4 rfl hnd hn (fun r => rfl)]
    rfl
  · rw [show ("F" : String).data ++ '_' :: (n.data ++ '_' :: 's' :: 't' :: '.' ::
        (("wav" : String).data ++ t.data)) = 'F' :: '_' :: (n.data ++ '_' :: 's' :: 't' :: '.' ::
        (['w', 'a', 'v'] ++ t.data)) from rfl]
    rw [matchGrammar_full_match d1 d2 d3 d4 'F' n.data ['w', 'a', 'v'] t.data
      h1 h2 h3 h4 rfl hnd hn (fun r => rfl)]
    rfl

/-- C4 witness: the spec's example `G_1991_M_26_st.WAVxyz`. -/
theorem c4_prefix_match_tolerates_trailing_witness :
    ∃ sp gd a b,
      parse_filename ("G_" ++ "1991" ++ "_" ++ "M" ++ "_" ++ "26" ++ "_st." ++ "WAV" ++ "xyz") =
        (some sp, some gd, some a, some b) :=
  c4_prefix_match_tolerates_trailing "1991" "M" "26" "WAV" "xyz"
    (by decide) (by decide) (Or.inl rfl) (by decide) (by decide) (Or.inl rfl)
